import Mathlib

/-!
Verification development for the drmem mini control system.

The embedding covers the two source units:

* `src/device/data.rs` — the tagged binary value codec (`Type`,
  `ToRedisArgs::write_redis_args`, `FromRedisValue::from_redis_value`
  and the three payload decoders);
* `src/main.rs` — the sump-pump duty-cycle state machine
  (`State::to_off`, `State::to_on`), the frame reader (`get_reading`)
  and the monitor loop (`monitor`).

Bytes are modelled as `Nat` (values `< 256` in every buffer the code
produces).  Rust `u64` arithmetic is modelled with explicit wrapping
(`% 2^64`) where overflow matters.  Rust `f64` quantities in the duty
cycle computation are modelled as exact rationals `ℚ`; `f64::round`
(round half away from zero) is `rustRound`.  IEEE-754 `f64` payloads in
the codec are carried as their 64-bit patterns, which is exactly what
`to_be_bytes`/`from_be_bytes` transport.
-/

namespace DrMem

/-! ## Byte-level helpers (`u32::to_be_bytes`, `u64::to_be_bytes`, …) -/

/-- Big-endian byte list of a `u32` value, as `u32::to_be_bytes`.  Taking
each byte `% 256` realises the truncation of a wider argument to 32 bits
(the `as u32` cast site in the source). -/
def u32_be_bytes (n : Nat) : List Nat :=
  [n / 2 ^ 24 % 256, n / 2 ^ 16 % 256, n / 2 ^ 8 % 256, n % 256]

/-- Big-endian byte list of a `u64` value, as `u64::to_be_bytes`. -/
def u64_be_bytes (n : Nat) : List Nat :=
  [n / 2 ^ 56 % 256, n / 2 ^ 48 % 256, n / 2 ^ 40 % 256, n / 2 ^ 32 % 256,
   n / 2 ^ 24 % 256, n / 2 ^ 16 % 256, n / 2 ^ 8 % 256, n % 256]

/-- Recompose a big-endian byte list into a natural number, as
`u32::from_be_bytes` / `u64::from_be_bytes` do on their fixed-size
arrays. -/
def be_bytes_to_nat (l : List Nat) : Nat :=
  l.foldl (fun a b => a * 256 + b) 0

/-- Big-endian bytes of an `i64`, as `i64::to_be_bytes`: the bytes of its
two's-complement (`v mod 2^64`) representation. -/
def i64_to_be_bytes (v : Int) : List Nat :=
  u64_be_bytes (v % (2 : Int) ^ 64).toNat

/-- Reading an `i64` from 8 big-endian bytes, as `i64::from_be_bytes`:
the two's-complement interpretation of the 64-bit pattern. -/
def i64_from_be_bytes (l : List Nat) : Int :=
  let n := be_bytes_to_nat l
  if n < 2 ^ 63 then (n : Int) else (n : Int) - 2 ^ 64

/-- State of the incremental RFC 3629 UTF-8 validator: either at a
sequence boundary, or expecting one byte in `[lo, hi)` followed by
`more` standard continuation bytes. -/
inductive Utf8State where
  | start : Utf8State
  | expect (lo hi : Nat) (more : Nat) : Utf8State
deriving DecidableEq, Repr

/-- One step of the UTF-8 validator.  At a boundary the lead byte fixes
the admissible range of the next byte: `0xC0`/`0xC1` (overlong) and
`0xF5..` are invalid lead bytes, `0xE0`/`0xED`/`0xF0`/`0xF4` restrict
their first continuation byte (overlongs, surrogates, and code points
above `U+10FFFF`). -/
def utf8Step : Utf8State → Nat → Option Utf8State
  | .start, b =>
    if b < 128 then some .start
    else if b < 194 then none
    else if b < 224 then some (.expect 128 192 0)
    else if b = 224 then some (.expect 160 192 1)
    else if b = 237 then some (.expect 128 160 1)
    else if b < 240 then some (.expect 128 192 1)
    else if b = 240 then some (.expect 144 192 2)
    else if b < 244 then some (.expect 128 192 2)
    else if b = 244 then some (.expect 128 144 2)
    else none
  | .expect lo hi more, b =>
    if lo ≤ b ∧ b < hi then
      (if more = 0 then some .start else some (.expect 128 192 (more - 1)))
    else none

/-- A sequence is only complete at a boundary. -/
def utf8Accept : Utf8State → Bool
  | .start => true
  | .expect _ _ _ => false

/-- Run of the UTF-8 validator over a byte list. -/
def utf8Run : Utf8State → List Nat → Bool
  | st, [] => utf8Accept st
  | st, b :: rest =>
    match utf8Step st b with
    | some st' => utf8Run st' rest
    | none => false

/-- RFC 3629 UTF-8 validity of a byte sequence: the check performed by
`String::from_utf8` in `Type::decode_string`. -/
def validUtf8 (l : List Nat) : Bool := utf8Run .start l

/-! ## `src/device/data.rs` — the value type and its codec -/

/-- The `Type` enum of `src/device/data.rs` (named `Ty` because `Type` is
reserved in Lean).  `Flt` carries the 64-bit IEEE-754 pattern of the
`f64` (what `to_be_bytes` serialises); `Str` carries the UTF-8 bytes of
the Rust `String`. -/
inductive Ty where
  | Nil : Ty
  | Bool (b : Bool) : Ty
  | Int (v : Int) : Ty
  | Flt (bits : Nat) : Ty
  | Str (s : List Nat) : Ty
deriving DecidableEq, Repr

/-- A `redis::RedisError` of kind `TypeError`, carrying the message the
source attaches (every error this module builds has kind `TypeError`). -/
inductive RedisError where
  | typeError (msg : String) : RedisError
deriving DecidableEq, Repr

/-- The `redis::Value` variants that `from_redis_value` can receive. -/
inductive RValue where
  | Nil : RValue
  | Int (v : Int) : RValue
  | Data (buf : List Nat) : RValue
  | Bulk : RValue
  | Status (s : String) : RValue
  | Okay : RValue
deriving DecidableEq, Repr

/-- `Type::decode_integer`: needs at least 8 bytes and reads the first 8
as a big-endian `i64`. -/
def decode_integer (buf : List Nat) : Except RedisError Ty :=
  if buf.length ≥ 8 then
    .ok (.Int (i64_from_be_bytes (buf.take 8)))
  else
    .error (.typeError "integer data too short")

/-- `Type::decode_float`: needs at least 8 bytes and reads the first 8 as
a big-endian `f64` (kept as its bit pattern). -/
def decode_float (buf : List Nat) : Except RedisError Ty :=
  if buf.length ≥ 8 then
    .ok (.Flt (be_bytes_to_nat (buf.take 8)))
  else
    .error (.typeError "floating point data too short")

/-- `Type::decode_string`: a 4-byte big-endian length prefix, then that
many bytes which must be valid UTF-8. -/
def decode_string (buf : List Nat) : Except RedisError Ty :=
  if buf.length ≥ 4 then
    let len := be_bytes_to_nat (buf.take 4)
    if buf.length ≥ 4 + len then
      let str_vec := (buf.drop 4).take len
      if validUtf8 str_vec then .ok (.Str str_vec)
      else .error (.typeError "string not UTF-8")
    else .error (.typeError "string data too short")
  else .error (.typeError "string data too short")

/-- `ToRedisArgs::write_redis_args` for `Type`: the single argument
buffer written for a value.  `'F' = 70`, `'T' = 84`, `'I' = 73`,
`'D' = 68`, `'S' = 83`.  For `Str` the length prefix is
`(s.len() as u32).to_be_bytes()`: the cast truncates the length to 32
bits (realised by the `% 256` byte extraction in `u32_be_bytes`). -/
def write_redis_args : Ty → List Nat
  | .Nil => []
  | .Bool false => [70]
  | .Bool true => [84]
  | .Int v => 73 :: i64_to_be_bytes v
  | .Flt bits => 68 :: u64_be_bytes bits
  | .Str s => 83 :: (u32_be_bytes s.length ++ s)

/-- `FromRedisValue::from_redis_value` for `Type`: only `Value::Data`
buffers decode; an empty buffer is `Nil`, otherwise the first byte is
the tag. -/
def from_redis_value : RValue → Except RedisError Ty
  | .Data buf =>
    match buf with
    | [] => .ok .Nil
    | t :: rest =>
      if t = 70 then .ok (.Bool false)
      else if t = 84 then .ok (.Bool true)
      else if t = 73 then decode_integer rest
      else if t = 68 then decode_float rest
      else if t = 83 then decode_string rest
      else .error (.typeError "unknown tag")
  | _ => .error (.typeError "bad redis::Value")

/-! ## `src/main.rs` — duty-cycle state machine -/

/-- Wrapping `u64` subtraction `a - b` (two's-complement wraparound on
underflow, release-mode Rust semantics), for `a, b < 2^64`. -/
def wsub64 (a b : Nat) : Nat := (a + 2 ^ 64 - b) % 2 ^ 64

/-- `f64::round`: round half away from zero, modelled exactly on `ℚ`. -/
def rustRound (x : ℚ) : ℚ :=
  if 0 ≤ x then (⌊x + 1 / 2⌋ : ℚ) else (-(⌊-x + 1 / 2⌋ : ℚ))

/-- The `State` enum of the sump-pump monitor. -/
inductive State where
  | Unknown : State
  | Off (off_time : Nat) : State
  | On (off_time : Nat) (on_time : Nat) : State
deriving DecidableEq, Repr

/-- `State::to_off`: the state after an OFF event at `stamp`, and the
optional `(duty, in_flow)` result.  The source's `stamp - on_time` and
`stamp - off_time` are unchecked `u64` subtractions (`wsub64`); the
`f64` arithmetic is carried exactly on `ℚ`. -/
def to_off (s : State) (stamp : Nat) : State × Option (ℚ × ℚ) :=
  match s with
  | .Unknown => (.Off stamp, none)
  | .Off t => (.Off t, none)
  | .On off_time on_time =>
    let on_time_s : ℚ := (wsub64 stamp on_time : ℚ) / 1000
    let off_time_s : ℚ := (wsub64 stamp off_time : ℚ) / 1000
    let duty := rustRound (on_time_s * 100 / off_time_s)
    let in_flow := rustRound (2680 * duty / 60) / 100
    (.Off stamp, some (duty, in_flow))

/-- `State::to_on`: the state after an ON event at `stamp`, and whether a
real transition occurred. -/
def to_on (s : State) (stamp : Nat) : State × Bool :=
  match s with
  | .Unknown => (.Unknown, false)
  | .Off off_time => (.On off_time stamp, true)
  | .On o n => (.On o n, false)

/-! ## `src/main.rs` — frame reader -/

/-- An I/O failure reported by the byte stream (short read, disconnect,
or any other fault); `get_reading` propagates it unchanged. -/
inductive IoErr where
  | unexpectedEof : IoErr
deriving DecidableEq, Repr

/-- `AsyncReadExt::read_u64`: consume 8 bytes, big-endian; fail if the
stream has fewer. -/
def read_u64 (s : List Nat) : Except IoErr (Nat × List Nat) :=
  if s.length ≥ 8 then .ok (be_bytes_to_nat (s.take 8), s.drop 8)
  else .error .unexpectedEof

/-- `AsyncReadExt::read_u32`: consume 4 bytes, big-endian; fail if the
stream has fewer. -/
def read_u32 (s : List Nat) : Except IoErr (Nat × List Nat) :=
  if s.length ≥ 4 then .ok (be_bytes_to_nat (s.take 4), s.drop 4)
  else .error .unexpectedEof

/-- `get_reading`: read the 8-byte timestamp then the 4-byte flag off the
stream, returning `(stamp, value != 0)` and the rest of the stream; any
read error is propagated with `?`. -/
def get_reading (s : List Nat) : Except IoErr ((Nat × Bool) × List Nat) :=
  match read_u64 s with
  | .error e => .error e
  | .ok (stamp, s1) =>
    match read_u32 s1 with
    | .error e => .error e
    | .ok (value, s2) => .ok ((stamp, value != 0), s2)

/-! ## `src/main.rs` — the monitor loop and the persistence store

The notification channel (`tx.send`) is fire-and-forget in the source:
its result is discarded and it cannot fail the loop, so lamp commands
are elided from the model.  Persistence submissions, whose `?` operator
drives the control flow, are modelled explicitly: each `query_async`
call consumes one entry of a success oracle. -/

/-- A field value written to a history stream: the source writes string
literals and `f64` quantities. -/
inductive FieldVal where
  | s (v : String) : FieldVal
  | q (v : ℚ) : FieldVal
deriving DecidableEq, Repr

/-- One record appended to a history stream: `XADD key "*" value v`
(auto timestamp, used by `set_service_state`) or `XADD key stamp
value v`. -/
inductive Record where
  | auto (key : String) (value : FieldVal) : Record
  | stamped (key : String) (stamp : Nat) (value : FieldVal) : Record
deriving DecidableEq, Repr

/-- One persistence submission: a single `XADD`, or an atomic pipeline
of records (`redis::pipe().atomic()`). -/
inductive Op where
  | single (r : Record) : Op
  | atomicBatch (rs : List Record) : Op
deriving DecidableEq, Repr

/-- The records an operation would append. -/
def Op.records : Op → List Record
  | .single r => [r]
  | .atomicBatch rs => rs

/-- Modelled from the spec: the persistence store itself (the external
`redis` client library, not part of this repository) applies a
submitted operation wholly on success and not at all on failure — §1
assumes "ordered, optionally-atomic multi-command submission", and §4.4
requires that a failed atomic batch applies no partial subset. -/
def applyOp (log : List Record) (op : Op) (ok : Bool) : List Record :=
  if ok then log ++ op.records else log

/-- The three-record atomic batch the monitor submits for a completed
OFF transition, every record carrying the event timestamp. -/
def offBatch (stamp : Nat) (duty in_flow : ℚ) : Op :=
  .atomicBatch [.stamped "sump:state.hist" stamp (.s "off"),
                .stamped "sump:duty.hist" stamp (.q duty),
                .stamped "sump:in-flow.hist" stamp (.q in_flow)]

/-- `set_service_state`: one `XADD "sump:service.hist" "*" value v`. -/
def set_service_state_op (value : String) : Op :=
  .single (.auto "sump:service.hist" (.s value))

/-- One result of `get_reading` as the monitor's inner loop sees it:
a decoded frame or a read error. -/
inductive ReadEvent where
  | frame (stamp : Nat) (pump_on : Bool) : ReadEvent
  | ioError : ReadEvent
deriving DecidableEq, Repr

/-- The state update and the (at most one) persistence submission the
monitor issues for one decoded frame: `Ok((stamp, true))` runs `to_on`
and on a real transition appends one `state=on` record; `Ok((stamp,
false))` runs `to_off` and on a completed cycle submits the atomic
`offBatch`. -/
def frameOp (st : State) (stamp : Nat) (pump_on : Bool) : State × Option Op :=
  if pump_on then
    let r := to_on st stamp
    (r.1, if r.2 then some (.single (.stamped "sump:state.hist" stamp (.s "on"))) else none)
  else
    let r := to_off st stamp
    match r.2 with
    | some (duty, in_flow) => (r.1, some (offBatch stamp duty in_flow))
    | none => (r.1, none)

/-- How one connected session ends. -/
inductive SessionOutcome where
  | crashed : SessionOutcome
  | persistFailed : SessionOutcome
  | ranOut (st : State) : SessionOutcome
deriving DecidableEq, Repr

/-- The monitor's inner loop over one connection: each frame is handled
by `frameOp` and its submission consumes one oracle entry; a failed
submission is `?`-propagated (`persistFailed`); a read error appends a
`service=crash` record (itself `?`-propagated on failure) and breaks
out to reconnect (`crashed`).  Returns the outcome, the store log, and
the remaining oracle. -/
def sessionRun : State → List ReadEvent → List Bool → List Record →
    SessionOutcome × List Record × List Bool
  | st, [], oracle, log => (.ranOut st, log, oracle)
  | _, .ioError :: _, oracle, log =>
    if oracle.headD true then
      (.crashed, applyOp log (set_service_state_op "crash") true, oracle.tail)
    else (.persistFailed, log, oracle.tail)
  | st, .frame stamp pump_on :: evs, oracle, log =>
    match frameOp st stamp pump_on with
    | (st', none) => sessionRun st' evs oracle log
    | (st', some op) =>
      if oracle.headD true then
        sessionRun st' evs oracle.tail (applyOp log op true)
      else (.persistFailed, log, oracle.tail)

/-- One iteration of the monitor's outer loop: a connection attempt
either fails or yields a finite script of read events. -/
inductive ConnAttempt where
  | connectFail : ConnAttempt
  | connected (events : List ReadEvent) : ConnAttempt

/-- Whether the `monitor` function is still looping after a finite
script, or has returned a `RedisResult` error to its caller. -/
inductive MonitorOutcome where
  | running : MonitorOutcome
  | errored : MonitorOutcome
deriving DecidableEq, Repr

/-- The `monitor` function over a finite script of connection attempts:
each outer iteration resets the state machine to `Unknown`; a failed
connect appends `service=down` and retries after the fixed delay; a
successful connect appends `service=up` and runs the session loop.
Every `service` append sits under `?`, so its failure — like a
`persistFailed` session — makes `monitor` itself return the error
(`errored`); only a read-error crash reaches the delay-and-reconnect
path. -/
def monitorRun : List ConnAttempt → List Bool → List Record →
    MonitorOutcome × List Record
  | [], _, log => (.running, log)
  | .connectFail :: rest, oracle, log =>
    if oracle.headD true then
      monitorRun rest oracle.tail (applyOp log (set_service_state_op "down") true)
    else (.errored, log)
  | .connected evs :: rest, oracle, log =>
    if oracle.headD true then
      match sessionRun .Unknown evs oracle.tail
          (applyOp log (set_service_state_op "up") true) with
      | (.persistFailed, log', _) => (.errored, log')
      | (.crashed, log', oracle') => monitorRun rest oracle' log'
      | (.ranOut _, log', _) => (.running, log')
    else (.errored, log)

/-! ## Spec-side definitions, for comparison with the embedding -/

/-- The claim's notion of a representable `Value` (§3): the five
variants, a `Str` holding valid UTF-8, with `Int` a 64-bit signed
integer and `Flt` a 64-bit pattern. -/
def Representable : Ty → Prop
  | .Nil => True
  | .Bool _ => True
  | .Int v => -(2 ^ 63) ≤ v ∧ v < 2 ^ 63
  | .Flt bits => bits < 2 ^ 64
  | .Str s => validUtf8 s = true

/-- Whether a value's `Str` payload fits the 4-byte length prefix of the
wire format — the bound the round-trip property actually needs. -/
def StrFits : Ty → Prop
  | .Str s => s.length < 2 ^ 32
  | _ => True

/-- Follows the spec's words (§4.2): `inflow_gpm =
round((2680.0 * duty_percent / 60.0) * 100) / 100`. -/
def specInflow (duty_percent : ℚ) : ℚ :=
  rustRound ((2680 * duty_percent / 60) * 100) / 100

/-- Follows the spec's decode rules (§4.1), as amended: a buffer decodes
successfully iff it is empty, or its tag byte is `F`/`T`, or `I`/`D`
with at least 8 payload bytes, or `S` with a complete, valid-UTF-8
declared payload — bytes beyond the consumed payload being ignored. -/
def scalarShapeOK : List Nat → Bool
  | [] => true
  | t :: rest =>
    decide (t = 70) || decide (t = 84) ||
    ((decide (t = 73) || decide (t = 68)) && decide (8 ≤ rest.length)) ||
    (decide (t = 83) && decide (4 ≤ rest.length) &&
      decide (4 + be_bytes_to_nat (rest.take 4) ≤ rest.length) &&
      validUtf8 ((rest.drop 4).take (be_bytes_to_nat (rest.take 4))))

/-! ## Supporting lemmas -/

theorem be_u64_roundtrip (n : Nat) (h : n < 2 ^ 64) :
    be_bytes_to_nat (u64_be_bytes n) = n := by
  simp only [be_bytes_to_nat, u64_be_bytes, List.foldl]
  omega

theorem be_u32_roundtrip (n : Nat) (h : n < 2 ^ 32) :
    be_bytes_to_nat (u32_be_bytes n) = n := by
  simp only [be_bytes_to_nat, u32_be_bytes, List.foldl]
  omega

theorem u64_be_bytes_take_8 (m : Nat) : (u64_be_bytes m).take 8 = u64_be_bytes m := rfl

theorem u64_be_bytes_length (m : Nat) : (u64_be_bytes m).length = 8 := rfl

theorem i64_roundtrip (v : Int) (h1 : -(2 ^ 63) ≤ v) (h2 : v < 2 ^ 63) :
    i64_from_be_bytes (i64_to_be_bytes v) = v := by
  have hnn : (0 : Int) ≤ v % (2 : Int) ^ 64 := Int.emod_nonneg v (by norm_num)
  have hm : (((v % (2 : Int) ^ 64).toNat : Int)) = v % (2 : Int) ^ 64 :=
    Int.toNat_of_nonneg hnn
  have hlt : v % (2 : Int) ^ 64 < 2 ^ 64 := Int.emod_lt_of_pos v (by norm_num)
  have hlt' : (v % (2 : Int) ^ 64).toNat < 2 ^ 64 := by omega
  simp only [i64_from_be_bytes, i64_to_be_bytes, be_u64_roundtrip _ hlt']
  split <;> omega

theorem decode_integer_encode (v : Int) (h1 : -(2 ^ 63) ≤ v) (h2 : v < 2 ^ 63) :
    decode_integer (i64_to_be_bytes v) = .ok (.Int v) := by
  have h8 : (i64_to_be_bytes v).length = 8 := u64_be_bytes_length _
  have htake : (i64_to_be_bytes v).take 8 = i64_to_be_bytes v := u64_be_bytes_take_8 _
  simp [decode_integer, h8, htake, i64_roundtrip v h1 h2]

theorem decode_float_encode (bits : Nat) (h : bits < 2 ^ 64) :
    decode_float (u64_be_bytes bits) = .ok (.Flt bits) := by
  simp [decode_float, u64_be_bytes_length, u64_be_bytes_take_8, be_u64_roundtrip bits h]

theorem decode_string_encode (s : List Nat) (hutf : validUtf8 s = true)
    (hlen : s.length < 2 ^ 32) :
    decode_string (u32_be_bytes s.length ++ s) = .ok (.Str s) := by
  have h4 : (u32_be_bytes s.length).length = 4 := rfl
  have htake : (u32_be_bytes s.length ++ s).take 4 = u32_be_bytes s.length :=
    List.take_left' h4
  have hdrop : (u32_be_bytes s.length ++ s).drop 4 = s := List.drop_left' h4
  simp [decode_string, htake, hdrop, be_u32_roundtrip s.length hlen, h4,
    List.length_append, hutf, List.take_length]

theorem validUtf8_nil : validUtf8 [] = true := rfl

theorem validUtf8_cons_ascii {b : Nat} (hb : b < 128) (rest : List Nat) :
    validUtf8 (b :: rest) = validUtf8 rest := by
  simp [validUtf8, utf8Run, utf8Step, hb]

theorem validUtf8_replicate_a (n : Nat) :
    validUtf8 (List.replicate n 97) = true := by
  induction n with
  | zero => rfl
  | succ k ih =>
    rw [List.replicate_succ, validUtf8_cons_ascii (by norm_num)]
    exact ih

/-- Helper: a string of exactly `2^32` bytes encodes with a length
prefix truncated to `0`, so its encoding decodes to the empty string. -/
theorem str_too_long_decodes_empty (s : List Nat) (h1 : s.length = 4294967296) :
    from_redis_value (.Data (write_redis_args (.Str s))) = .ok (.Str []) := by
  have hlen : (([0, 0, 0, 0] : List Nat) ++ s).length = 4 + 4294967296 := by
    simp [h1]
  have htake : (([0, 0, 0, 0] : List Nat) ++ s).take 4 = [0, 0, 0, 0] :=
    List.take_left' rfl
  have hbe : be_bytes_to_nat ((([0, 0, 0, 0] : List Nat) ++ s).take 4) = 0 := by
    rw [htake]; rfl
  have h3 : decode_string ([0, 0, 0, 0] ++ s) = .ok (.Str []) := by
    simp only [decode_string, hbe, hlen]
    norm_num [validUtf8_nil]
  have hstep : from_redis_value (.Data (write_redis_args (.Str s))) =
      decode_string (u32_be_bytes s.length ++ s) := rfl
  have h2 : u32_be_bytes s.length = [0, 0, 0, 0] := by
    rw [h1]; norm_num [u32_be_bytes]
  rw [hstep, h2]
  exact h3

/-- C1 (counterexample): the round-trip claim fails as stated.  The
`Str` of `2^32 = 4294967296` bytes `'a'` is a representable value
(valid UTF-8), but `(s.len() as u32)` truncates its length to `0` in
the encoded prefix, so the buffer decodes to the empty string, not to
the original value. -/
theorem encode_decode_large_str_not_roundtrip :
    validUtf8 (List.replicate 4294967296 97) = true ∧
    from_redis_value (.Data (write_redis_args (.Str (List.replicate 4294967296 97)))) =
      .ok (.Str []) ∧
    Ty.Str [] ≠ Ty.Str (List.replicate 4294967296 97) := by
  refine ⟨validUtf8_replicate_a _,
    str_too_long_decodes_empty _ (List.length_replicate _ _), ?_⟩
  intro h
  injection h with h'
  have hl := List.length_replicate 4294967296 (97 : Nat)
  rw [← h'] at hl
  simp at hl

/-- C1 (amended): decoding the encoding of any representable value whose
`Str` payload fits the 4-byte length prefix (fewer than `2^32` bytes)
yields exactly that value. -/
theorem decode_encode_roundtrip (v : Ty) (h1 : Representable v) (h2 : StrFits v) :
    from_redis_value (.Data (write_redis_args v)) = .ok v := by
  cases v with
  | Nil => rfl
  | Bool b => cases b <;> rfl
  | Int n =>
    obtain ⟨ha, hb⟩ := h1
    simpa [from_redis_value, write_redis_args] using decode_integer_encode n ha hb
  | Flt bits =>
    simpa [from_redis_value, write_redis_args] using decode_float_encode bits h1
  | Str s =>
    simpa [from_redis_value, write_redis_args] using decode_string_encode s h1 h2

/-- C1 (witness): the round trip at the concrete string `"hi"`. -/
theorem decode_encode_roundtrip_witness :
    from_redis_value (.Data (write_redis_args (.Str [104, 105]))) =
      .ok (.Str [104, 105]) :=
  decode_encode_roundtrip (.Str [104, 105]) (by show validUtf8 [104, 105] = true; decide)
    (by show ([104, 105] : List Nat).length < 2 ^ 32; norm_num)

/-! ## C4 and C7 — decode failure behaviour -/

theorem decode_integer_isOk (b : List Nat) :
    (decode_integer b).isOk = decide (8 ≤ b.length) := by
  by_cases h : 8 ≤ b.length <;> simp [decode_integer, h, Except.isOk, Except.toBool]

theorem decode_float_isOk (b : List Nat) :
    (decode_float b).isOk = decide (8 ≤ b.length) := by
  by_cases h : 8 ≤ b.length <;> simp [decode_float, h, Except.isOk, Except.toBool]

theorem decode_string_isOk (b : List Nat) :
    (decode_string b).isOk = (decide (4 ≤ b.length) &&
      decide (4 + be_bytes_to_nat (b.take 4) ≤ b.length) &&
      validUtf8 ((b.drop 4).take (be_bytes_to_nat (b.take 4)))) := by
  by_cases h1 : 4 ≤ b.length
  · by_cases h2 : 4 + be_bytes_to_nat (b.take 4) ≤ b.length
    · by_cases h3 : validUtf8 ((b.drop 4).take (be_bytes_to_nat (b.take 4))) = true
      · simp [decode_string, h1, h2, h3, Except.isOk, Except.toBool]
      · simp only [Bool.not_eq_true] at h3
        simp [decode_string, h1, h2, h3, Except.isOk, Except.toBool]
    · simp [decode_string, h1, h2, Except.isOk, Except.toBool]
  · simp [decode_string, h1, Except.isOk, Except.toBool]

/-- C4 (counterexample): a buffer with a valid `F` tag and payload
followed by an extra trailing byte decodes successfully, so the claim
that decoding fails on every buffer with trailing bytes after a valid
tag and payload is false on the code — trailing bytes are ignored. -/
theorem decode_trailing_bytes_accepted :
    from_redis_value (.Data [70, 0]) = .ok (.Bool false) := rfl

/-- C4 (amended): decoding from a `Data` buffer succeeds exactly on the
well-formed-prefix shapes of `scalarShapeOK` — empty, `F`/`T` tag,
`I`/`D` tag with at least 8 payload bytes, or `S` tag with a complete,
valid-UTF-8 declared payload, any bytes beyond the consumed payload
being ignored — and decoding from a non-`Data` value always fails;
failures are typed errors, never silent coercions. -/
theorem decode_ok_characterization :
    (∀ buf : List Nat, (from_redis_value (.Data buf)).isOk = scalarShapeOK buf) ∧
    (∀ v : RValue, (∀ buf, v ≠ .Data buf) → (from_redis_value v).isOk = false) := by
  constructor
  · intro buf
    match buf with
    | [] => rfl
    | t :: rest =>
      by_cases h70 : t = 70
      · simp [from_redis_value, scalarShapeOK, h70, Except.isOk, Except.toBool]
      · by_cases h84 : t = 84
        · simp [from_redis_value, scalarShapeOK, h70, h84, Except.isOk, Except.toBool]
        · by_cases h73 : t = 73
          · simp [from_redis_value, scalarShapeOK, h70, h84, h73, decode_integer_isOk]
          · by_cases h68 : t = 68
            · simp [from_redis_value, scalarShapeOK, h70, h84, h73, h68,
                decode_float_isOk]
            · by_cases h83 : t = 83
              · simp [from_redis_value, scalarShapeOK, h70, h84, h73, h68, h83,
                  decode_string_isOk, Bool.and_assoc]
              · simp [from_redis_value, scalarShapeOK, h70, h84, h73, h68, h83,
                  Except.isOk, Except.toBool]
  · intro v hv
    cases v with
    | Data buf => exact absurd rfl (hv buf)
    | Nil => rfl
    | Int n => rfl
    | Bulk => rfl
    | Status s => rfl
    | Okay => rfl

/-- C4 (witness): the characterization at a concrete short `I` buffer
and at the non-buffer value `Okay`. -/
theorem decode_ok_characterization_witness :
    (from_redis_value (.Data [73, 1])).isOk = scalarShapeOK [73, 1] ∧
    (from_redis_value .Okay).isOk = false :=
  ⟨decode_ok_characterization.1 [73, 1],
   decode_ok_characterization.2 .Okay (fun _ h => RValue.noConfusion h)⟩

/-- C7: decoding is a total function and fails with the documented
typed error in each malformed case: `I`/`D` tags with fewer than 8
payload bytes give the length errors, an `S` tag with fewer than 4
length-prefix bytes or fewer than the declared number of further bytes
gives the length error, a complete `S` payload that is not valid UTF-8
gives the encoding error, and an unrecognized tag byte gives the
unknown-tag error. -/
theorem decode_error_classes :
    (∀ rest : List Nat, rest.length < 8 →
      from_redis_value (.Data (73 :: rest)) =
        .error (.typeError "integer data too short")) ∧
    (∀ rest : List Nat, rest.length < 8 →
      from_redis_value (.Data (68 :: rest)) =
        .error (.typeError "floating point data too short")) ∧
    (∀ rest : List Nat, rest.length < 4 →
      from_redis_value (.Data (83 :: rest)) =
        .error (.typeError "string data too short")) ∧
    (∀ rest : List Nat, 4 ≤ rest.length →
      rest.length < 4 + be_bytes_to_nat (rest.take 4) →
      from_redis_value (.Data (83 :: rest)) =
        .error (.typeError "string data too short")) ∧
    (∀ rest : List Nat, 4 + be_bytes_to_nat (rest.take 4) ≤ rest.length →
      validUtf8 ((rest.drop 4).take (be_bytes_to_nat (rest.take 4))) = false →
      from_redis_value (.Data (83 :: rest)) =
        .error (.typeError "string not UTF-8")) ∧
    (∀ t rest, t ≠ 70 → t ≠ 84 → t ≠ 73 → t ≠ 68 → t ≠ 83 →
      from_redis_value (.Data (t :: rest)) = .error (.typeError "unknown tag")) := by
  refine ⟨?_, ?_, ?_, ?_, ?_, ?_⟩
  · intro rest h
    have h8 : ¬ 8 ≤ rest.length := by omega
    simp [from_redis_value, decode_integer, h8]
  · intro rest h
    have h8 : ¬ 8 ≤ rest.length := by omega
    simp [from_redis_value, decode_float, h8]
  · intro rest h
    have h4 : ¬ 4 ≤ rest.length := by omega
    simp [from_redis_value, decode_string, h4]
  · intro rest h4 h
    have hn : ¬ 4 + be_bytes_to_nat (rest.take 4) ≤ rest.length := by omega
    simp [from_redis_value, decode_string, h4, hn]
  · intro rest h hf
    have h4 : 4 ≤ rest.length := by omega
    simp [from_redis_value, decode_string, h4, h, hf]
  · intro t rest h70 h84 h73 h68 h83
    simp [from_redis_value, h70, h84, h73, h68, h83]

/-- C7 (witness): each error class at a concrete malformed buffer. -/
theorem decode_error_classes_witness :
    from_redis_value (.Data [73, 1, 2, 3]) =
      .error (.typeError "integer data too short") ∧
    from_redis_value (.Data [68]) =
      .error (.typeError "floating point data too short") ∧
    from_redis_value (.Data [83, 0, 0]) =
      .error (.typeError "string data too short") ∧
    from_redis_value (.Data [83, 0, 0, 0, 2, 97]) =
      .error (.typeError "string data too short") ∧
    from_redis_value (.Data [83, 0, 0, 0, 1, 255]) =
      .error (.typeError "string not UTF-8") ∧
    from_redis_value (.Data [90]) = .error (.typeError "unknown tag") :=
  ⟨decode_error_classes.1 _ (by decide),
   decode_error_classes.2.1 _ (by decide),
   decode_error_classes.2.2.1 _ (by decide),
   decode_error_classes.2.2.2.1 _ (by decide) (by decide),
   decode_error_classes.2.2.2.2.1 _ (by decide) (by decide),
   decode_error_classes.2.2.2.2.2 90 [] (by decide) (by decide) (by decide)
     (by decide) (by decide)⟩

/-! ## C5, C6, C2, C10 — the duty-cycle state machine -/

theorem wsub64_eq_sub {a b : Nat} (hb : b ≤ a) (ha : a < 2 ^ 64) :
    wsub64 a b = a - b := by
  simp only [wsub64]
  omega

/-- C5: `State::to_off` by case on the current state: `Unknown` becomes
`Off{off_time=stamp}` returning `None`; a duplicate OFF leaves the
state, including `off_time`, unchanged and returns `None`;
`On{off_time, on_time}` becomes `Off{off_time=stamp}` and returns
`Some(duty, inflow)` with `duty = round(((stamp - on_time)/1000) * 100
/ ((stamp - off_time)/1000))` — for in-range, monotone timestamps,
where the unchecked `u64` subtractions equal the mathematical ones. -/
theorem to_off_cases (stamp : Nat) :
    to_off .Unknown stamp = (.Off stamp, none) ∧
    (∀ t, to_off (.Off t) stamp = (.Off t, none)) ∧
    (∀ o n, stamp < 2 ^ 64 → n ≤ stamp → o ≤ stamp →
      ∃ infl, to_off (.On o n) stamp =
        (.Off stamp, some (rustRound ((((stamp : ℚ) - (n : ℚ)) / 1000) * 100 /
          (((stamp : ℚ) - (o : ℚ)) / 1000)), infl))) := by
  refine ⟨rfl, fun t => rfl, fun o n hs hn ho => ?_⟩
  refine ⟨rustRound (2680 * rustRound ((((stamp : ℚ) - (n : ℚ)) / 1000) * 100 /
    (((stamp : ℚ) - (o : ℚ)) / 1000)) / 60) / 100, ?_⟩
  simp only [to_off]
  rw [wsub64_eq_sub hn hs, wsub64_eq_sub ho hs, Nat.cast_sub hn, Nat.cast_sub ho]

/-- C5 (witness): the spec's own example — from `On{100, 200}`, an OFF
at 2000 yields duty `round(1.8 * 100 / 1.9)` and state `Off{2000}`. -/
theorem to_off_cases_witness :
    ∃ infl, to_off (.On 100 200) 2000 =
      (.Off 2000, some (rustRound ((((2000 : ℚ) - (200 : ℚ)) / 1000) * 100 /
        (((2000 : ℚ) - (100 : ℚ)) / 1000)), infl)) :=
  (to_off_cases 2000).2.2 100 200 (by norm_num) (by norm_num) (by norm_num)

/-- C6: `State::to_on` by case on the current state: `Unknown` is
unchanged and returns `false`; `Off{off_time}` becomes
`On{off_time, on_time=stamp}`, preserving `off_time`, and returns
`true`; a duplicate ON leaves the state, including `on_time`, unchanged
and returns `false`. -/
theorem to_on_cases (stamp : Nat) :
    to_on .Unknown stamp = (.Unknown, false) ∧
    (∀ t, to_on (.Off t) stamp = (.On t stamp, true)) ∧
    (∀ o n, to_on (.On o n) stamp = (.On o n, false)) :=
  ⟨rfl, fun _ => rfl, fun _ _ => rfl⟩

/-- C2 (counterexample): at the completed cycle `On{off_time=0,
on_time=400000}` observed OFF at 1000000 the code returns duty 60 and
inflow `round(2680*60/60)/100 = 26.8` gpm, while the spec's formula
`round((2680*60/60)*100)/100` gives 2680 — the claim's extra `* 100`
inside the round is not what the code computes. -/
theorem inflow_spec_formula_counterexample :
    (to_off (.On 0 400000) 1000000).2 = some (60, 134 / 5) ∧
    specInflow 60 = 2680 ∧ ((134 : ℚ) / 5) ≠ 2680 := by
  refine ⟨?_, ?_, by norm_num⟩
  · simp only [to_off]
    norm_num [wsub64, rustRound]
  · norm_num [specInflow, rustRound]

/-- C2 (amended): whenever `to_off` completes an ON→OFF cycle and
returns `Some(duty, inflow)`, the inflow equals
`round(2680.0 * duty_percent / 60.0) / 100` — the gpm estimate
`2680 * (duty/100) / 60` rounded to 2 decimal places, without the
spec's extra `* 100` inside the round. -/
theorem inflow_code_formula (st : State) (stamp : Nat) (d i : ℚ)
    (h : (to_off st stamp).2 = some (d, i)) :
    i = rustRound (2680 * d / 60) / 100 := by
  cases st with
  | Unknown => simp [to_off] at h
  | Off t => simp [to_off] at h
  | On o n =>
    have h2 : (to_off (.On o n) stamp).2 =
        some (rustRound (((wsub64 stamp n : ℚ) / 1000) * 100 /
            ((wsub64 stamp o : ℚ) / 1000)),
          rustRound (2680 * rustRound (((wsub64 stamp n : ℚ) / 1000) * 100 /
            ((wsub64 stamp o : ℚ) / 1000)) / 60) / 100) := rfl
    rw [h2, Option.some.injEq, Prod.mk.injEq] at h
    obtain ⟨hd, hi⟩ := h
    rw [← hi, hd]

/-- C2 (witness): the amended inflow formula at the concrete cycle
`On{0, 400000}` observed OFF at 1000000. -/
theorem inflow_code_formula_witness :
    (134 : ℚ) / 5 = rustRound (2680 * 60 / 60) / 100 :=
  inflow_code_formula (.On 0 400000) 1000000 60 (134 / 5)
    (by simp only [to_off]; norm_num [wsub64, rustRound])

/-- C10: in the `On` branch of `to_off` both timestamp subtractions are
the unchecked wrapping `u64` subtraction `wsub64`; under the
monotonicity precondition `on_time ≤ stamp`, `off_time ≤ stamp` (with
in-range timestamps) they equal the mathematical differences, while for
`stamp < on_time` — stamp 7, on_time 10 — the subtraction underflows
and wraps to `2^64 - 3` instead of `-3`. -/
theorem to_off_sub_underflow :
    (∀ o n stamp : Nat, (to_off (.On o n) stamp).2.map Prod.fst =
      some (rustRound (((wsub64 stamp n : ℚ) / 1000) * 100 /
        ((wsub64 stamp o : ℚ) / 1000)))) ∧
    (∀ stamp o n : Nat, stamp < 2 ^ 64 → n ≤ stamp → o ≤ stamp →
      ((wsub64 stamp n : ℤ) = (stamp : ℤ) - (n : ℤ) ∧
       (wsub64 stamp o : ℤ) = (stamp : ℤ) - (o : ℤ))) ∧
    (wsub64 7 10 = 2 ^ 64 - 3 ∧ ((wsub64 7 10 : ℤ) ≠ (7 : ℤ) - 10)) := by
  refine ⟨fun o n stamp => rfl, fun stamp o n hs hn ho => ⟨?_, ?_⟩, ?_, ?_⟩
  · rw [wsub64_eq_sub hn hs]; omega
  · rw [wsub64_eq_sub ho hs]; omega
  · norm_num [wsub64]
  · norm_num [wsub64]

/-- C10 (witness): the no-underflow conclusion at stamp 5 with
off_time 1 and on_time 2. -/
theorem to_off_sub_underflow_witness :
    (wsub64 5 2 : ℤ) = (5 : ℤ) - 2 ∧ (wsub64 5 1 : ℤ) = (5 : ℤ) - 1 :=
  to_off_sub_underflow.2.1 5 1 2 (by norm_num) (by norm_num) (by norm_num)

/-! ## C9 — the frame reader -/

/-- C9: `get_reading` consumes exactly 12 bytes of the stream — an
8-byte big-endian unsigned timestamp followed by a 4-byte big-endian
flag — and yields `(timestamp, pump_is_on)` with `pump_is_on` true iff
the flag is nonzero, leaving exactly the remainder of the stream; on a
stream shorter than 12 bytes it fails with the read error propagated
from the underlying reads, with no internal retry. -/
theorem get_reading_spec (s : List Nat) :
    (12 ≤ s.length →
      get_reading s = .ok ((be_bytes_to_nat (s.take 8),
        be_bytes_to_nat ((s.drop 8).take 4) != 0), s.drop 12)) ∧
    (s.length < 12 → get_reading s = .error .unexpectedEof) := by
  constructor
  · intro h
    have h8 : s.length ≥ 8 := by omega
    have h4 : 4 ≤ s.length - 8 := by omega
    simp [get_reading, read_u64, read_u32, h8, h4, List.drop_drop]
  · intro h
    by_cases h8 : s.length ≥ 8
    · have h4 : ¬ 4 ≤ s.length - 8 := by omega
      simp [get_reading, read_u64, read_u32, h8, h4]
    · simp [get_reading, read_u64, read_u32, h8]

/-- C9 (witness): a concrete 14-byte stream — timestamp 300, nonzero
flag — yields `(300, true)` with 2 bytes left, and a concrete 10-byte
stream fails with the read error. -/
theorem get_reading_spec_witness :
    get_reading [0, 0, 0, 0, 0, 0, 1, 44, 0, 0, 0, 1, 9, 9] =
      .ok ((300, true), [9, 9]) ∧
    get_reading [0, 0, 0, 0, 0, 0, 1, 44, 0, 0] = .error .unexpectedEof :=
  ⟨((get_reading_spec [0, 0, 0, 0, 0, 0, 1, 44, 0, 0, 0, 1, 9, 9]).1
      (by norm_num)).trans (by rfl),
   (get_reading_spec [0, 0, 0, 0, 0, 0, 1, 44, 0, 0]).2 (by norm_num)⟩

/-! ## C3 and C8 — the monitor loop and the persistence batch -/

/-- C3 (counterexample): a failed atomic batch makes `monitorRun`
return `errored` even though a further connection attempt was still
pending — `monitor` terminates with the error rather than entering a
reconnect cycle, and the log shows the second attempt never started
(exactly one `service=up` record, and no `service` record after the
failure). -/
theorem persist_failure_terminates_monitor_example :
    monitorRun [.connected [.frame 100 false, .frame 200 true, .frame 2000 false],
        .connected [.frame 100 false]] [true, true, false] [] =
      (.errored, [.auto "sump:service.hist" (.s "up"),
        .stamped "sump:state.hist" 200 (.s "on")]) ∧
    (MonitorOutcome.errored ≠ MonitorOutcome.running) := by
  refine ⟨by decide, by decide⟩

/-- C3 (amended): a persistence-append failure (including the atomic
batch) is propagated out of `monitor` entirely: when the session loop
ends with `persistFailed`, `monitor` returns the error — outcome
`errored` — regardless of any remaining connection attempts, so the
whole monitor loop terminates and no reconnect cycle follows a
persistence failure. -/
theorem persist_failure_errors_monitor (evs : List ReadEvent)
    (rest : List ConnAttempt) (oracle : List Bool) (log log' : List Record)
    (oracle' : List Bool)
    (h : sessionRun .Unknown evs oracle
        (applyOp log (set_service_state_op "up") true) =
      (.persistFailed, log', oracle')) :
    monitorRun (.connected evs :: rest) (true :: oracle) log = (.errored, log') := by
  simp [monitorRun, h]

/-- C3 (witness): the amended propagation at the concrete failing
script. -/
theorem persist_failure_errors_monitor_witness :
    monitorRun [.connected [.frame 100 false, .frame 200 true, .frame 2000 false],
      .connected []] [true, true, false] [] =
    (.errored, [.auto "sump:service.hist" (.s "up"),
      .stamped "sump:state.hist" 200 (.s "on")]) :=
  persist_failure_errors_monitor
    [.frame 100 false, .frame 200 true, .frame 2000 false]
    [.connected []] [true, false] []
    [.auto "sump:service.hist" (.s "up"),
     .stamped "sump:state.hist" 200 (.s "on")] [] (by decide)

/-- C8: every completed OFF transition submits exactly one persistence
operation, the atomic three-record batch — state=off, duty, in-flow,
each stamped with the same event timestamp — and the modelled store
applies an atomic batch all-or-nothing, so a failed batch appends no
partial subset of the three records. -/
theorem off_batch_atomic :
    (∀ st stamp st' d i, to_off st stamp = (st', some (d, i)) →
      frameOp st stamp false = (st', some (offBatch stamp d i))) ∧
    (∀ stamp d i, (offBatch stamp d i).records =
      [.stamped "sump:state.hist" stamp (.s "off"),
       .stamped "sump:duty.hist" stamp (.q d),
       .stamped "sump:in-flow.hist" stamp (.q i)]) ∧
    (∀ log rs, applyOp log (.atomicBatch rs) false = log) ∧
    (∀ log rs, applyOp log (.atomicBatch rs) true = log ++ rs) := by
  refine ⟨?_, fun stamp d i => rfl, fun log rs => rfl, fun log rs => rfl⟩
  intro st stamp st' d i h
  simp [frameOp, h]

/-- C8 (witness): the batch operation at the concrete completed cycle
`On{100, 200}` → OFF at 2000, and the no-partial-application law at a
concrete log. -/
theorem off_batch_atomic_witness :
    frameOp (.On 100 200) 2000 false =
      (.Off 2000, some (offBatch 2000 95 (4243 / 100))) ∧
    applyOp [] (.atomicBatch [.stamped "sump:state.hist" 2000 (.s "off")]) false =
      [] :=
  ⟨off_batch_atomic.1 (.On 100 200) 2000 (.Off 2000) 95 (4243 / 100)
      (by simp only [to_off]; norm_num [wsub64, rustRound]),
   off_batch_atomic.2.2.1 [] _⟩

end DrMem
